import Mathlib

/-
Verification development for the hack_chat_types crate.

Shallow embedding of src/util.rs, src/lib.rs (modules client/server/synthetic
and the Users registry) and src/server.rs.  Rust Strings are Lean Strings;
where the source indexes raw bytes (Color parsing), the model works on the
UTF-8 byte sequence and represents the Rust panic on slicing inside a
multi-byte char as none.  The remaining string operations (splitting on the
ASCII space, comparing against ASCII words and stripping one-char ASCII
prefixes) are char-level, which coincides with Rust's byte-level behavior on
every input.  Rust u64/u32 values are Nat with explicit range checks where
the source can overflow.
HashMap is modelled as an association list (first match wins on lookup;
iteration order of the Rust HashMap is unspecified, which the spec records
as a known ambiguity of find_online_nick).
-/

set_option maxRecDepth 4096

/-- Tri-state optional value from src/util.rs (MaybeExist). -/
inductive MaybeExist (α : Type) where
  | Has (v : α)
  | Unknown
  | Not
deriving DecidableEq

/-- MaybeExist::from_option_unknown: Some maps to Has, None to Unknown. -/
def MaybeExist.from_option_unknown : Option α → MaybeExist α
  | some v => .Has v
  | none => .Unknown

/-- MaybeExist::map. -/
def MaybeExist.map (f : α → β) : MaybeExist α → MaybeExist β
  | .Has v => .Has (f v)
  | .Unknown => .Unknown
  | .Not => .Not

/-- MaybeExist::and_then. -/
def MaybeExist.and_then (x : MaybeExist α) (f : α → MaybeExist β) : MaybeExist β :=
  match x with
  | .Has v => f v
  | .Unknown => .Unknown
  | .Not => .Not

/-- Into Option for MaybeExist: Has maps to Some, the other states to None. -/
def MaybeExist.toOption : MaybeExist α → Option α
  | .Has v => some v
  | .Unknown => none
  | .Not => none

/-- Decidable equality for Except, so that concrete decoder runs can be
checked by decide. -/
instance [DecidableEq ε] [DecidableEq α] : DecidableEq (Except ε α) := fun x y =>
  match x, y with
  | .ok a, .ok b =>
    if h : a = b then isTrue (by rw [h]) else isFalse (fun hc => h (Except.ok.inj hc))
  | .error a, .error b =>
    if h : a = b then isTrue (by rw [h]) else isFalse (fun hc => h (Except.error.inj hc))
  | .ok _, .error _ => isFalse (fun hc => Except.noConfusion hc)
  | .error _, .ok _ => isFalse (fun hc => Except.noConfusion hc)

/-- Error kinds of Rust core ParseIntError reachable from u8 from_str_radix. -/
inductive IntParseKind where
  | Empty
  | InvalidDigit
  | PosOverflow
deriving DecidableEq

/-- ColorParseError from src/util.rs (variant names preserved from source). -/
inductive ColorParseError where
  | UnexpectedEOF
  | TooManyCharacters
  | ParseError (e : IntParseKind)
deriving DecidableEq

/-- RGB color from src/util.rs; channels are u8 values (0..=255). -/
structure Color where
  r : Nat
  g : Nat
  b : Nat
deriving DecidableEq

/-- UTF-8 encoding of one char, as a Rust String stores text. -/
def utf8Bytes (c : Char) : List Nat :=
  if c.toNat < 128 then [c.toNat]
  else if c.toNat < 2048 then [192 + c.toNat / 64, 128 + c.toNat % 64]
  else if c.toNat < 65536 then
    [224 + c.toNat / 4096, 128 + c.toNat / 64 % 64, 128 + c.toNat % 64]
  else
    [240 + c.toNat / 262144, 128 + c.toNat / 4096 % 64,
      128 + c.toNat / 64 % 64, 128 + c.toNat % 64]

/-- Number of UTF-8 bytes a char occupies. -/
def charUtf8Len (c : Char) : Nat := (utf8Bytes c).length

/-- UTF-8 byte sequence of a char list: str::as_bytes, and str::len counts
exactly these bytes. -/
def strBytes : List Char → List Nat
  | [] => []
  | c :: cs => utf8Bytes c ++ strBytes cs

/-- str::is_char_boundary: whether a byte index falls on a boundary between
chars; Rust byte slicing panics at a non-boundary index. -/
def isCharBoundary : List Char → Nat → Bool
  | _, 0 => true
  | [], _ + 1 => false
  | c :: cs, i + 1 =>
    if i + 1 < charUtf8Len c then false
    else isCharBoundary cs (i + 1 - charUtf8Len c)

/-- Value of one hex-digit byte, as computed per byte inside Rust
from_str_radix (digits 0-9, a-f, A-F; bytes of multi-byte chars are above
127 and are never digits). -/
def hexValB? (b : Nat) : Option Nat :=
  if 48 ≤ b ∧ b ≤ 57 then some (b - 48)
  else if 97 ≤ b ∧ b ≤ 102 then some (b - 87)
  else if 65 ≤ b ∧ b ≤ 70 then some (b - 55)
  else none

/-- Accumulating loop of u8::from_str_radix with radix 16: each step is a
checked multiply and add, erring with PosOverflow past the u8 maximum 255. -/
def u8Radix16Go : Nat → List Nat → Except IntParseKind Nat
  | acc, [] => .ok acc
  | acc, b :: rest =>
    match hexValB? b with
    | none => .error .InvalidDigit
    | some v =>
      if 255 < acc * 16 then .error .PosOverflow
      else if 255 < acc * 16 + v then .error .PosOverflow
      else u8Radix16Go (acc * 16 + v) rest

/-- u8::from_str_radix(s, 16) over the str's bytes: empty input errs Empty;
an optional leading plus sign (byte 43) is accepted; every further byte must
be a hex digit. -/
def u8_from_str_radix16 (s : List Nat) : Except IntParseKind Nat :=
  match s with
  | [] => .error .Empty
  | b :: rest =>
    let digits := if b = 43 then rest else b :: rest
    match digits with
    | [] => .error .InvalidDigit
    | _ => u8Radix16Go 0 digits

/-- sliceList l a b is the slice l[a..b]. -/
def sliceList (l : List α) (a b : Nat) : List α :=
  (l.drop a).take (b - a)

/-- Length dispatch and byte slicing of Color::try_from after the leading
hashes are removed.  Lengths are UTF-8 byte lengths (text.len()) and the
channel groups are byte slices at fixed indices; a slice index inside a
multi-byte char panics in Rust, modelled as none.  Index 0 and the index
equal to the dispatched byte length are always boundaries, so only the
interior indices (1 and 2, or 2 and 4) carry boundary checks, placed where
the source's slice expressions are evaluated.  More than 6 bytes errs
UnexpectedEOF, exactly 3 parses one hex digit per channel, any other length
under 6 errs TooManyCharacters, exactly 6 parses two hex digits per channel
(variant names are the source's own). -/
def colorParseStripped (t : List Char) : Option (Except ColorParseError Color) :=
  let bytes := strBytes t
  let len := bytes.length
  if 6 < len then some (.error .UnexpectedEOF)
  else if len < 6 then
    if len = 3 then
      if isCharBoundary t 1 then
        match u8_from_str_radix16 (sliceList bytes 0 1) with
        | .error e => some (.error (.ParseError e))
        | .ok red =>
          if isCharBoundary t 2 then
            match u8_from_str_radix16 (sliceList bytes 1 2) with
            | .error e => some (.error (.ParseError e))
            | .ok green =>
              match u8_from_str_radix16 (sliceList bytes 2 3) with
              | .error e => some (.error (.ParseError e))
              | .ok blue => some (.ok ⟨red, green, blue⟩)
          else none
      else none
    else some (.error .TooManyCharacters)
  else
    if isCharBoundary t 2 then
      match u8_from_str_radix16 (sliceList bytes 0 2) with
      | .error e => some (.error (.ParseError e))
      | .ok red =>
        if isCharBoundary t 4 then
          match u8_from_str_radix16 (sliceList bytes 2 4) with
          | .error e => some (.error (.ParseError e))
          | .ok green =>
            match u8_from_str_radix16 (sliceList bytes 4 6) with
            | .error e => some (.error (.ParseError e))
            | .ok blue => some (.ok ⟨red, green, blue⟩)
        else none
    else none

/-- Color::try_from of src/util.rs: text.trim_start_matches removes every
leading hash char, then the byte-level length dispatch runs.  The outer
Option is the panic layer (none = abort on a mid-char slice); the inner
Except is the function's Result. -/
def Color.try_from (text : String) : Option (Except ColorParseError Color) :=
  colorParseStripped (text.toList.dropWhile (fun c => c = '#'))

/-- Hex group reading per the claim's words: every character of the group
must be a hex digit (no sign tolerance). -/
def claimHexGroup (g : List Char) : Except IntParseKind Nat :=
  match g.mapM (fun c => hexValB? c.toNat) with
  | none => .error .InvalidDigit
  | some vs => .ok (vs.foldl (fun a v => a * 16 + v) 0)

/-- Modelled from the claim's words (not from the source), for comparison
with Color.try_from: the claim says parsing first strips ONE optional
leading hash char, then dispatches on the remaining CHARACTER count, with
non-hex characters failing the numeric parse. -/
def colorClaimParse (text : String) : Except ColorParseError Color :=
  let t := match text.toList with
    | '#' :: rest => rest
    | l => l
  if t.length = 6 then
    match claimHexGroup (sliceList t 0 2) with
    | .error e => .error (.ParseError e)
    | .ok red =>
      match claimHexGroup (sliceList t 2 4) with
      | .error e => .error (.ParseError e)
      | .ok green =>
        match claimHexGroup (sliceList t 4 6) with
        | .error e => .error (.ParseError e)
        | .ok blue => .ok ⟨red, green, blue⟩
  else if t.length = 3 then
    match claimHexGroup (sliceList t 0 1) with
    | .error e => .error (.ParseError e)
    | .ok red =>
      match claimHexGroup (sliceList t 1 2) with
      | .error e => .error (.ParseError e)
      | .ok green =>
        match claimHexGroup (sliceList t 2 3) with
        | .error e => .error (.ParseError e)
        | .ok blue => .ok ⟨red, green, blue⟩
  else .error (if 6 < t.length then .UnexpectedEOF else .TooManyCharacters)

example : Color.try_from "#FFFFFF" = some (.ok ⟨255, 255, 255⟩) := by decide
example : Color.try_from "000" = some (.ok ⟨0, 0, 0⟩) := by decide
example : Color.try_from "12" = some (.error .TooManyCharacters) := by decide
example : Color.try_from "GGGGGG" = some (.error (.ParseError .InvalidDigit)) := by decide
example : Color.try_from "##FFFFFF" = some (.ok ⟨255, 255, 255⟩) := by decide
example : Color.try_from "+FFFFF" = some (.ok ⟨15, 255, 255⟩) := by decide
example : Color.try_from "ééééé" = some (.error .UnexpectedEOF) := by decide
example : Color.try_from "éé00" = some (.error (.ParseError .InvalidDigit)) := by decide
example : Color.try_from "é0" = none := by decide
example : colorClaimParse "##FFFFFF" = .error .UnexpectedEOF := by decide

/-- Protocol generation enum ServerApi from src/lib.rs. -/
inductive ServerApi where
  | HackChatV2
  | HackChatPreV2
  | HackChatLegacy
deriving DecidableEq

/-- JSON values of the json crate.  Short and String collapse to str; numbers
are modelled as integers (as_u64/as_u32 only succeed on in-range integral
values, which is all the decoders inspect); objects are association lists
with unique keys as produced by the crate's parser. -/
inductive Json where
  | null
  | bool (b : Bool)
  | num (n : Int)
  | str (s : String)
  | arr (elems : List Json)
  | obj (fields : List (String × Json))

/-- Index into a JSON object (json[key]): the value stored under the key, or
Null when the key is absent or the value is not an object. -/
def Json.getKey (j : Json) (key : String) : Json :=
  match j with
  | .obj fields =>
    match fields.find? (fun p => p.1 = key) with
    | some p => p.2
    | none => .null
  | _ => .null

/-- JsonValue::as_str: Some only for string values. -/
def Json.as_str : Json → Option String
  | .str s => some s
  | _ => none

/-- JsonValue::take_string: Some only for string values.  The source also
replaces the slot with Null, which is unobservable here because every
decoder reads each key at most once. -/
def Json.take_string : Json → Option String
  | .str s => some s
  | _ => none

/-- JsonValue::as_bool: Some only for boolean values. -/
def Json.as_bool : Json → Option Bool
  | .bool b => some b
  | _ => none

/-- JsonValue::as_u64: Some only for integral numbers in u64 range. -/
def Json.as_u64 : Json → Option Nat
  | .num n => if 0 ≤ n ∧ n < (2 : Int) ^ 64 then some n.toNat else none
  | _ => none

/-- JsonValue::as_u32: Some only for integral numbers in u32 range. -/
def Json.as_u32 : Json → Option Nat
  | .num n => if 0 ≤ n ∧ n < (2 : Int) ^ 32 then some n.toNat else none
  | _ => none

/-- as_array helper from src/util.rs. -/
def as_array : Json → Option (List Json)
  | .arr xs => some xs
  | _ => none

/-- as_object helper from src/util.rs. -/
def as_object : Json → Option (List (String × Json))
  | .obj fs => some fs
  | _ => none

/-- FromJsonError from src/util.rs; the static field-name strings are Lean
Strings. -/
inductive FromJsonError where
  | InvalidStructure
  | InvalidField (f : String)
  | InvalidCommandField (f : String)
deriving DecidableEq

/-- Rust Option::ok_or composed with the question-mark operator, used
pervasively by the decoders. -/
def okOr (o : Option α) (e : ε) : Except ε α :=
  match o with
  | some a => .ok a
  | none => .error e

/-- Unix timestamp newtype from src/lib.rs. -/
structure Timestamp where
  val : Nat
deriving DecidableEq

/-- Timestamp::from_json: as_u64 of the value, or InvalidField("time"). -/
def Timestamp.from_json (value : Json) : Except FromJsonError Timestamp :=
  okOr (value.as_u64.map Timestamp.mk) (.InvalidField "time")

/-- Trip newtype from src/lib.rs (field .0 of the Rust tuple struct). -/
structure Trip where
  val : String
deriving DecidableEq

/-- Trip::from_json: absent or non-string gives Unknown, the empty string
gives Not, anything else gives Has. -/
def Trip.from_json (json : Json) : MaybeExist Trip :=
  (MaybeExist.from_option_unknown json.take_string).and_then (fun x =>
    if x = "" then .Not else .Has ⟨x⟩)

/-- UserType from the server module. -/
inductive UserType where
  | User
  | Mod
  | Admin
deriving DecidableEq

/-- TryFrom str for UserType: only the three known strings succeed. -/
def UserType.tryFromStr (user_type : String) : Except Unit UserType :=
  match user_type with
  | "user" => .ok .User
  | "mod" => .ok .Mod
  | "admin" => .ok .Admin
  | _ => .error ()

/-- UserType::from_json: a non-string or unrecognized value yields None, not
an error. -/
def UserType.from_json (value : Json) : Option UserType :=
  value.as_str.bind (fun s =>
    match UserType.tryFromStr s with
    | .ok t => some t
    | .error _ => none)

/-- OnlineSetUser struct from the server module (fields in source order). -/
structure OnlineSetUser where
  channel : String
  is_me : Option Bool
  is_bot : Option Bool
  nick : String
  trip : MaybeExist Trip
  user_type : Option UserType
  user_id : Option Nat
  hash : String
  color : Option Color
  level : Option Nat
deriving DecidableEq

/-- OnlineSetUser::from_json.  Note two quirks preserved from the source:
required-field failures use InvalidCommandField rather than InvalidField,
and the hash lookup's error names id::CHANNEL instead of id::HASH (a
copy-paste of the channel line).  A malformed color or uType silently
becomes None. -/
def OnlineSetUser.from_json (j : Json) (_api : ServerApi) :
    Except FromJsonError OnlineSetUser := do
  let channel ← okOr (j.getKey "channel").take_string (.InvalidCommandField "channel")
  let is_me := (j.getKey "isme").as_bool
  let is_bot := (j.getKey "isBot").as_bool
  let nick ← okOr (j.getKey "nick").take_string (.InvalidCommandField "nick")
  let trip := Trip.from_json (j.getKey "trip")
  let user_type := UserType.from_json (j.getKey "uType")
  let user_id := (j.getKey "userid").as_u64
  let hash ← okOr (j.getKey "hash").take_string (.InvalidCommandField "channel")
  -- Color::try_from(x).ok(); a color whose byte slicing panics (none) would
  -- abort the Rust process, which the total decoder cannot express - it is
  -- collapsed to an absent color, and no claim evaluates a decoder there.
  let color := (j.getKey "color").as_str.bind
    (fun x => (Color.try_from x).bind Except.toOption)
  let level := (j.getKey "level").as_u64
  pure ⟨channel, is_me, is_bot, nick, trip, user_type, user_id, hash, color, level⟩

/-- OnlineSet struct from the server module. -/
structure OnlineSet where
  nicks : Option (List String)
  users : Option (List OnlineSetUser)
  channel : Option String
  time : Timestamp
deriving DecidableEq

/-- OnlineSet::from_json.  The channel is read from the wire key "text"
(id::TEXT in the source), not from "channel". -/
def OnlineSet.from_json (j : Json) (api : ServerApi) : Except FromJsonError OnlineSet :=
  if (j.getKey "cmd").as_str ≠ some "onlineSet" then
    .error (.InvalidCommandField "onlineSet")
  else do
    let nicks := (as_array (j.getKey "nicks")).bind (fun x => x.mapM Json.take_string)
    let users ← match as_array (j.getKey "users") with
      | none => pure none
      | some us => Except.map some (us.mapM (fun x => OnlineSetUser.from_json x api))
    let channel := (j.getKey "text").take_string
    let time ← Timestamp.from_json (j.getKey "time")
    pure ⟨nicks, users, channel, time⟩

/-- Server Session struct; the public map is an association list standing for
the Rust HashMap of channel to user count. -/
structure ServerSession where
  users : Nat
  channels : Nat
  public : List (String × Nat)
  session_id : String
  restored : Option Bool
  time : Timestamp
deriving DecidableEq

/-- Server Session::from_json. -/
def ServerSession.from_json (j : Json) (_api : ServerApi) :
    Except FromJsonError ServerSession :=
  if (j.getKey "cmd").as_str ≠ some "session" then
    .error (.InvalidCommandField "session")
  else do
    let users ← okOr (j.getKey "users").as_u32 (.InvalidField "users")
    let channels ← okOr (j.getKey "chans").as_u32 (.InvalidField "chans")
    let public ← match as_object (j.getKey "public") with
      | none => pure []
      | some object => object.mapM (fun p => do
          let user_count ← okOr p.2.as_u32 (.InvalidField "public")
          pure (p.1, user_count))
    let session_id ← okOr (j.getKey "sessionID").take_string (.InvalidField "sessionID")
    let restored := (j.getKey "restored").as_bool
    let time ← Timestamp.from_json (j.getKey "time")
    pure ⟨users, channels, public, session_id, restored, time⟩

/-- Info struct from the server module. -/
structure Info where
  text : String
  channel : Option String
  time : Timestamp
deriving DecidableEq

/-- Info::from_json. -/
def Info.from_json (j : Json) (_api : ServerApi) : Except FromJsonError Info :=
  if (j.getKey "cmd").as_str ≠ some "info" then
    .error (.InvalidCommandField "info")
  else do
    let text ← okOr (j.getKey "text").take_string (.InvalidField "text")
    let channel := (j.getKey "channel").take_string
    let time ← Timestamp.from_json (j.getKey "time")
    pure ⟨text, channel, time⟩

/-- Server Chat struct. -/
structure ServerChat where
  nick : String
  user_type : Option UserType
  user_id : Option Nat
  channel : Option String
  text : String
  level : Option Nat
  is_mod : Bool
  is_admin : Bool
  trip : MaybeExist Trip
  time : Timestamp
deriving DecidableEq

/-- Server Chat::from_json; the uType handling is inlined in the source and
identical to UserType::from_json. -/
def ServerChat.from_json (j : Json) (_api : ServerApi) : Except FromJsonError ServerChat :=
  if (j.getKey "cmd").as_str ≠ some "chat" then
    .error (.InvalidCommandField "chat")
  else do
    let nick ← okOr (j.getKey "nick").take_string (.InvalidField "nick")
    let user_type := (j.getKey "uType").as_str.bind (fun s =>
      match UserType.tryFromStr s with
      | .ok t => some t
      | .error _ => none)
    let user_id := (j.getKey "userid").as_u64
    let channel := (j.getKey "channel").take_string
    let text ← okOr (j.getKey "text").take_string (.InvalidField "text")
    let level := (j.getKey "level").as_u64
    let is_mod := ((j.getKey "mod").as_bool).getD false
    let is_admin := ((j.getKey "admin").as_bool).getD false
    let trip := Trip.from_json (j.getKey "trip")
    let time ← Timestamp.from_json (j.getKey "time")
    pure ⟨nick, user_type, user_id, channel, text, level, is_mod, is_admin, trip, time⟩

/-- Captcha struct from the server module. -/
structure Captcha where
  text : String
  channel : Option String
deriving DecidableEq

/-- Captcha::from_json. -/
def Captcha.from_json (j : Json) (_api : ServerApi) : Except FromJsonError Captcha :=
  if (j.getKey "cmd").as_str ≠ some "captcha" then
    .error (.InvalidCommandField "captcha")
  else do
    let text ← okOr (j.getKey "text").take_string (.InvalidField "text")
    let channel := (j.getKey "channel").take_string
    pure ⟨text, channel⟩

/-- Server Emote struct. -/
structure Emote where
  text : String
  nick : Option String
  time : Timestamp
  trip : MaybeExist Trip
  user_id : Option Nat
deriving DecidableEq

/-- Emote::from_json. -/
def Emote.from_json (j : Json) (_api : ServerApi) : Except FromJsonError Emote :=
  if (j.getKey "cmd").as_str ≠ some "emote" then
    .error (.InvalidCommandField "emote")
  else do
    let text ← okOr (j.getKey "text").take_string (.InvalidField "text")
    let nick := (j.getKey "nick").take_string
    let time ← Timestamp.from_json (j.getKey "time")
    let trip := Trip.from_json (j.getKey "trip")
    let user_id := (j.getKey "userid").as_u64
    pure ⟨text, nick, time, trip, user_id⟩

/-- Server Invite struct; the Rust fields from and to are named fromId and
toId because from is a Lean keyword. -/
structure Invite where
  channel : Option String
  fromId : Nat
  toId : Nat
  invite_channel : String
  time : Timestamp
deriving DecidableEq

/-- Invite::from_json. -/
def Invite.from_json (j : Json) (_api : ServerApi) : Except FromJsonError Invite :=
  if (j.getKey "cmd").as_str ≠ some "invite" then
    .error (.InvalidCommandField "invite")
  else do
    let channel := (j.getKey "channel").take_string
    let fromId ← okOr (j.getKey "from").as_u64 (.InvalidField "from")
    let toId ← okOr (j.getKey "to").as_u64 (.InvalidField "to")
    let invite_channel ← okOr (j.getKey "inviteChannel").take_string
      (.InvalidField "inviteChannel")
    let time ← Timestamp.from_json (j.getKey "time")
    pure ⟨channel, fromId, toId, invite_channel, time⟩

/-- OnlineAdd struct from the server module. -/
structure OnlineAdd where
  channel : Option String
  color : Option Color
  hash : Option String
  is_bot : Option Bool
  level : Option Nat
  nick : String
  time : Timestamp
  trip : MaybeExist Trip
  user_type : Option UserType
  user_id : Option Nat
deriving DecidableEq

/-- OnlineAdd::from_json. -/
def OnlineAdd.from_json (j : Json) (_api : ServerApi) : Except FromJsonError OnlineAdd :=
  if (j.getKey "cmd").as_str ≠ some "onlineAdd" then
    .error (.InvalidCommandField "onlineAdd")
  else do
    let channel := (j.getKey "channel").take_string
    -- Color::try_from(x).ok(), with the panic layer collapsed as above.
    let color := (j.getKey "color").as_str.bind
      (fun x => (Color.try_from x).bind Except.toOption)
    let hash := (j.getKey "hash").take_string
    let is_bot := (j.getKey "isBot").as_bool
    let level := (j.getKey "level").as_u64
    let nick ← okOr (j.getKey "nick").take_string (.InvalidField "nick")
    let time ← Timestamp.from_json (j.getKey "time")
    let trip := Trip.from_json (j.getKey "trip")
    let user_type := UserType.from_json (j.getKey "uType")
    let user_id := (j.getKey "userid").as_u64
    pure ⟨channel, color, hash, is_bot, level, nick, time, trip, user_type, user_id⟩

/-- OnlineRemove struct from the server module. -/
structure OnlineRemove where
  channel : Option String
  nick : String
  time : Timestamp
  user_id : Option Nat
deriving DecidableEq

/-- OnlineRemove::from_json. -/
def OnlineRemove.from_json (j : Json) (_api : ServerApi) :
    Except FromJsonError OnlineRemove :=
  if (j.getKey "cmd").as_str ≠ some "onlineRemove" then
    .error (.InvalidCommandField "onlineRemove")
  else do
    let channel := (j.getKey "channel").take_string
    let nick ← okOr (j.getKey "nick").take_string (.InvalidField "nick")
    let time ← Timestamp.from_json (j.getKey "time")
    let user_id := (j.getKey "userid").as_u64
    pure ⟨channel, nick, time, user_id⟩

/-- Warn struct from the server module. -/
structure Warn where
  channel : Option String
  text : String
  time : Timestamp
deriving DecidableEq

/-- Warn::from_json.  Unlike every sibling decoder, the source performs no
check of the wire "cmd" field. -/
def Warn.from_json (j : Json) (_api : ServerApi) : Except FromJsonError Warn := do
  let channel := (j.getKey "channel").take_string
  let text ← okOr (j.getKey "text").take_string (.InvalidField "text")
  let time ← Timestamp.from_json (j.getKey "time")
  pure ⟨channel, text, time⟩

/-- Dual-namespace user identifier from src/lib.rs: ids sent by the server
versus ids generated locally.  Equality distinguishes the tags even at equal
numeric payloads. -/
inductive AccessUserId where
  | Server (id : Nat)
  | Generated (id : Nat)
deriving DecidableEq

/-- AccessUserId::into_server_id: Some only for the Server tag. -/
def AccessUserId.into_server_id : AccessUserId → Option Nat
  | .Server id => some id
  | .Generated _ => none

/-- Numeric payload of an identifier, used to state monotonicity. -/
def AccessUserId.num : AccessUserId → Nat
  | .Server id => id
  | .Generated id => id

/-- UserInfo record from src/lib.rs. -/
structure UserInfo where
  nick : String
  trip : MaybeExist Trip
  online : Bool
deriving DecidableEq

/-- ServerIdentifierTag from src/lib.rs. -/
inductive ServerIdentifierTag where
  | UserId
  | Nickname
  | Trip
deriving DecidableEq

/-- ServerIdentifier from src/lib.rs (borrowed strs modelled as owned). -/
inductive ServerIdentifier where
  | UserId (id : Nat)
  | Nickname (s : String)
  | Trip (s : String)
deriving DecidableEq

/-- Users registry from src/lib.rs.  The private id counter is a u64; the
HashMap of users is an association list. -/
structure Users where
  id : Nat
  ourself : Option AccessUserId
  users : List (AccessUserId × UserInfo)
deriving DecidableEq

/-- Users::default(): counter 0, no self id, empty map. -/
def defaultUsers : Users := ⟨0, none, []⟩

/-- Users::generate_id mints AccessUserId::Generated(id) and increments the
u64 counter.  The increment is a Rust u64 addition, which is an overflow
error once the counter reaches the u64 maximum (a panic under checked
arithmetic); that failure case is modelled as none. -/
def Users.generate_id (u : Users) : Option (AccessUserId × Users) :=
  if u.id + 1 < 2 ^ 64 then
    some (.Generated u.id, { u with id := u.id + 1 })
  else none

/-- N successive generate_id calls, returning the minted identifiers in call
order together with the final registry; none if some call overflows. -/
def Users.mintN (u : Users) : Nat → Option (List AccessUserId × Users)
  | 0 => some ([], u)
  | n + 1 =>
    match u.generate_id with
    | none => none
    | some (a, u₂) => (u₂.mintN n).map (fun p => (a :: p.1, p.2))

/-- Users::clear empties the user map (and touches nothing else). -/
def Users.clear (u : Users) : Users :=
  { u with users := [] }

/-- Users::get, a HashMap lookup by identifier. -/
def Users.get (u : Users) (id : AccessUserId) : Option UserInfo :=
  (u.users.find? (fun p => p.1 = id)).map (fun p => p.2)

/-- Users::insert. -/
def Users.insert (u : Users) (id : AccessUserId) (user_info : UserInfo) : Users :=
  { u with users := (id, user_info) :: u.users.filter (fun p => p.1 ≠ id) }

/-- Users::contains_key. -/
def Users.contains_key (u : Users) (id : AccessUserId) : Bool :=
  (u.users.find? (fun p => p.1 = id)).isSome

/-- Users::find_online_nick: the first entry (in the unspecified iteration
order, here list order) that is online and carries the nickname. -/
def Users.find_online_nick (u : Users) (nick : String) :
    Option (AccessUserId × UserInfo) :=
  u.users.find? (fun p => p.2.online && p.2.nick = nick)

/-- Users::acquire_server_identifier: the UserId tag projects the identifier
itself without touching the map, Nickname needs the entry, Trip additionally
needs the trip to be confirmed present. -/
def Users.acquire_server_identifier (u : Users) (id : AccessUserId)
    (tag : ServerIdentifierTag) : Option ServerIdentifier :=
  match tag with
  | .UserId => id.into_server_id.map ServerIdentifier.UserId
  | .Nickname => (u.get id).map (fun info => .Nickname info.nick)
  | .Trip =>
    (u.get id).bind (fun info =>
      ((info.trip.map (fun x => x.val)).map ServerIdentifier.Trip).toOption)

/-- First split of Rust str::splitn: the part before the first separator and
the rest, or none when the separator does not occur. -/
def splitFirst (sep : Char) : List Char → Option (List Char × List Char)
  | [] => none
  | c :: cs =>
    if c = sep then some ([], cs)
    else (splitFirst sep cs).map (fun p => (c :: p.1, p.2))

/-- Core of Rust str::splitn(n, sep) on char lists: at most n items, the
last item holding the unsplit remainder. -/
def splitnCore (sep : Char) : Nat → List Char → List (List Char)
  | 0, _ => []
  | 1, s => [s]
  | n + 2, s =>
    match splitFirst sep s with
    | none => [s]
    | some (a, b) => a :: splitnCore sep (n + 1) b

/-- Rust str::splitn(n, sep) producing Strings. -/
def splitn (n : Nat) (sep : Char) (s : String) : List String :=
  (splitnCore sep n s.toList).map (fun l => String.mk l)

/-- Rust str::strip_prefix with a char pattern. -/
def stripPrefixCh (c : Char) (s : String) : Option String :=
  match s.toList with
  | [] => none
  | hd :: tl => if hd = c then some (String.mk tl) else none

/-- InviteConversionError from the synthetic module. -/
inductive InviteConversionError where
  | NoFrom
  | NoInvited
  | NoTo
  | NoToJoiner
  | NoChannel
  | InvalidChannel
  | UnknownNick
  | UnknownSelf
deriving DecidableEq

/-- Synthetic Invite from the synthetic module (fields from and to renamed
fromId and toId as in the Invite struct above). -/
structure SynInvite where
  invite_channel : String
  fromId : AccessUserId
  toId : AccessUserId
  time : Timestamp
deriving DecidableEq

/-- synthetic Invite::from_invite: both ids are re-tagged as Server ids. -/
def SynInvite.from_invite (_users : Users) (invite : Invite) : SynInvite :=
  ⟨invite.invite_channel, .Server invite.fromId, .Server invite.toId, invite.time⟩

/-- synthetic Invite::from_info.  The text is split with splitn(4, space) and
the pieces are drawn in iterator order, modelled by successive indices into
the split list; each failure mirrors one ok_or or comparison of the
source. -/
def SynInvite.from_info (users : Users) (info : Info) :
    Except InviteConversionError SynInvite :=
  let split := splitn 4 ' ' info.text
  match split[0]? with
  | none => .error .NoFrom
  | some fromName =>
    if split[1]? ≠ some "invited" then .error .NoInvited
    else
      match split[2]? with
      | none => .error .NoTo
      | some toName =>
        if split[3]? ≠ some "to" then .error .NoToJoiner
        else
          match split[4]? with
          | none => .error .NoChannel
          | some rawChannel =>
            match stripPrefixCh '?' rawChannel with
            | none => .error .InvalidChannel
            | some channel =>
              if toName = "you" then
                match users.ourself with
                | none => .error .UnknownSelf
                | some toId =>
                  match users.find_online_nick fromName with
                  | none => .error .UnknownNick
                  | some fromFound =>
                    .ok ⟨channel, fromFound.1, toId, info.time⟩
              else
                match users.find_online_nick toName with
                | none => .error .UnknownNick
                | some toFound =>
                  match users.ourself with
                  | none => .error .UnknownSelf
                  | some fromId =>
                    .ok ⟨channel, fromId, toFound.1, info.time⟩

/-- EmoteInfoConversionError from the synthetic module of src/server.rs. -/
inductive EmoteInfoConversionError where
  | NoUser
  | NoAt
  | NoUserFound
deriving DecidableEq

/-- Synthetic Emote from the synthetic module. -/
structure SynEmote where
  text : String
  user_id : AccessUserId
  time : Timestamp
deriving DecidableEq

/-- synthetic Emote::from_info from src/server.rs: the text is split with
splitn(2, space), the first piece must carry an at-sign prefix, the stripped
name is looked up among online users, and the second piece (or the empty
string) becomes the emote body. -/
def SynEmote.from_info (users : Users) (info : Info) :
    Except EmoteInfoConversionError SynEmote :=
  let split := splitn 2 ' ' info.text
  match split[0]? with
  | none => .error .NoUser
  | some fromTok =>
    match stripPrefixCh '@' fromTok with
    | none => .error .NoAt
    | some fromName =>
      match users.find_online_nick fromName with
      | none => .error .NoUserFound
      | some found =>
        .ok ⟨(split[1]?).getD "", found.1, info.time⟩

/-- Appending strings concatenates their char lists. -/
lemma toList_append (s t : String) : (s ++ t).toList = s.toList ++ t.toList := by
  cases s
  cases t
  rfl

/-- Rebuilding a string from its char list is the identity. -/
lemma mk_toList (s : String) : String.mk s.toList = s := by
  cases s
  rfl

/-- Binding an ok value in Except applies the continuation. -/
lemma exceptBind_ok (a : α) (f : α → Except ε β) : (Except.ok a : Except ε α) >>= f = f a :=
  rfl

/-- Pure in the Except monad is ok. -/
lemma exceptPure (a : α) : (pure a : Except ε α) = Except.ok a :=
  rfl

/-- splitFirst finds nothing when the separator does not occur. -/
lemma splitFirst_not_mem {sep : Char} : ∀ {l : List Char}, sep ∉ l → splitFirst sep l = none
  | [], _ => rfl
  | c :: cs, h => by
    have hc : ¬ c = sep := fun hh => h (hh ▸ List.mem_cons_self c cs)
    have hcs : sep ∉ cs := fun hh => h (List.mem_cons_of_mem c hh)
    simp [splitFirst, hc, splitFirst_not_mem hcs]

/-- splitFirst cuts at the first separator occurrence. -/
lemma splitFirst_append {sep : Char} :
    ∀ {a : List Char} (b : List Char), sep ∉ a → splitFirst sep (a ++ sep :: b) = some (a, b)
  | [], b, _ => by simp [splitFirst]
  | c :: a', b, h => by
    have hc : ¬ c = sep := fun hh => h (hh ▸ List.mem_cons_self c a')
    have ha : sep ∉ a' := fun hh => h (List.mem_cons_of_mem c hh)
    simp [splitFirst, hc, splitFirst_append b ha]

/-- splitn with limit 2 on a separator-free list returns the list whole. -/
lemma splitnCore_two_no_sep {sep : Char} {l : List Char} (h : sep ∉ l) :
    splitnCore sep 2 l = [l] := by
  simp [splitnCore, splitFirst_not_mem h]

/-- splitn with limit 2 cuts once at the first separator. -/
lemma splitnCore_two_with_sep {sep : Char} {a : List Char} (b : List Char) (h : sep ∉ a) :
    splitnCore sep 2 (a ++ sep :: b) = [a, b] := by
  simp [splitnCore, splitFirst_append b h]

/-- splitn yields at most n pieces. -/
lemma splitnCore_length_le (sep : Char) : ∀ (n : Nat) (s : List Char), (splitnCore sep n s).length ≤ n := by
  intro n
  induction n using Nat.strong_induction_on with
  | _ n ih =>
    intro s
    match n with
    | 0 => simp [splitnCore]
    | 1 => simp [splitnCore]
    | m + 2 =>
      rw [splitnCore]
      cases h : splitFirst sep s with
      | none => simp
      | some p =>
        have := ih (m + 1) (by omega) p.2
        simpa [h] using by omega

/-- Hex-digit bytes decode to at most 15. -/
lemma hexValB?_le {b v : Nat} (h : hexValB? b = some v) : v ≤ 15 := by
  unfold hexValB? at h
  split_ifs at h with h1 h2 h3 <;> simp_all <;> omega

/-- Hex-digit bytes are ASCII. -/
lemma hexValB?_lt128 {b v : Nat} (h : hexValB? b = some v) : b < 128 := by
  unfold hexValB? at h
  split_ifs at h with h1 h2 h3 <;> simp_all <;> omega

/-- A byte with a hex value is not the plus sign (byte 43). -/
lemma hexValB?_ne43 {b v : Nat} (h : hexValB? b = some v) : ¬ b = 43 := by
  intro hb
  subst hb
  have hn : hexValB? 43 = none := by decide
  rw [hn] at h
  cases h

/-- A two-byte group of hex digits parses to sixteen times the first digit
plus the second. -/
lemma u8radix2 {b1 b2 v1 v2 : Nat} (h1 : hexValB? b1 = some v1)
    (h2 : hexValB? b2 = some v2) :
    u8_from_str_radix16 [b1, b2] = .ok (16 * v1 + v2) := by
  have e1 := hexValB?_le h1
  have e2 := hexValB?_le h2
  have hne := hexValB?_ne43 h1
  unfold u8_from_str_radix16
  simp only [if_neg hne]
  simp only [u8Radix16Go, h1]
  rw [if_neg (by omega), if_neg (by omega)]
  simp only [u8Radix16Go, h2]
  rw [if_neg (by omega), if_neg (by omega)]
  congr 1
  omega

/-- A single hex-digit byte parses to its value. -/
lemma u8radix1 {b1 v1 : Nat} (h1 : hexValB? b1 = some v1) :
    u8_from_str_radix16 [b1] = .ok v1 := by
  have e1 := hexValB?_le h1
  have hne := hexValB?_ne43 h1
  unfold u8_from_str_radix16
  simp only [if_neg hne]
  simp only [u8Radix16Go, h1]
  rw [if_neg (by omega), if_neg (by omega)]
  congr 1
  omega

/-- An ASCII char encodes as its single code-point byte. -/
lemma utf8Bytes_ascii {c : Char} (h : c.toNat < 128) : utf8Bytes c = [c.toNat] := by
  unfold utf8Bytes
  rw [if_pos h]

/-- An ASCII char occupies one byte. -/
lemma charUtf8Len_ascii {c : Char} (h : c.toNat < 128) : charUtf8Len c = 1 := by
  unfold charUtf8Len
  rw [utf8Bytes_ascii h]
  rfl

/-- Stepping a boundary check over a leading ASCII char. -/
lemma isCharBoundary_cons_ascii {c : Char} (h : c.toNat < 128) (cs : List Char)
    (i : Nat) : isCharBoundary (c :: cs) (i + 1) = isCharBoundary cs i := by
  simp only [isCharBoundary, charUtf8Len_ascii h]
  simp

/-- A successful run of N generate_id calls mints exactly the payloads
counter, counter+1, ..., counter+N-1 in order, advances the counter by N and
leaves the self id and the user map untouched. -/
lemma mintN_some_spec : ∀ {n : Nat} {u u₂ : Users} {l : List AccessUserId},
    u.mintN n = some (l, u₂) →
    l = (List.range n).map (fun k => AccessUserId.Generated (u.id + k)) ∧
      u₂.id = u.id + n ∧ u₂.ourself = u.ourself ∧ u₂.users = u.users := by
  intro n
  induction n with
  | zero =>
    intro u u₂ l h
    simp [Users.mintN] at h
    simp [h.1, h.2]
  | succ m ih =>
    intro u u₂ l h
    rw [Users.mintN] at h
    unfold Users.generate_id at h
    by_cases hb : u.id + 1 < 2 ^ 64
    · rw [if_pos hb] at h
      simp only [Option.map_eq_some'] at h
      rcases h with ⟨⟨l', u'⟩, hrec, hpair⟩
      have hspec := ih hrec
      simp only at hspec
      cases hpair
      refine ⟨?_, by simp [hspec.2.1]; omega, by simp [hspec.2.2.1], by simp [hspec.2.2.2]⟩
      rw [List.range_succ_eq_map]
      simp only [List.map_cons, List.map_map]
      refine congrArg₂ _ (by simp) ?_
      rw [hspec.1]
      apply List.map_congr_left
      intro k _
      simp only [Function.comp]
      congr 1
      omega
    · rw [if_neg hb] at h
      cases h

/-- Once the counter headroom is exhausted, a run of N calls aborts. -/
lemma mintN_overflow : ∀ (n : Nat) (u : Users), 1 ≤ n → 2 ^ 64 ≤ u.id + n →
    u.mintN n = none := by
  intro n
  induction n with
  | zero => intro u h; omega
  | succ m ih =>
    intro u _ hge
    rw [Users.mintN]
    unfold Users.generate_id
    by_cases hb : u.id + 1 < 2 ^ 64
    · rw [if_pos hb]
      have hm : 1 ≤ m := by omega
      have : ({ u with id := u.id + 1 } : Users).mintN m = none := by
        apply ih _ hm
        simp
        omega
      simp [this]
    · rw [if_neg hb]

/-- With enough counter headroom, a run of N generate_id calls succeeds. -/
lemma mintN_isSome : ∀ (n : Nat) (u : Users), u.id + n < 2 ^ 64 →
    ∃ l u₂, u.mintN n = some (l, u₂) := by
  intro n
  induction n with
  | zero => intro u _; exact ⟨[], u, rfl⟩
  | succ m ih =>
    intro u hlt
    rw [Users.mintN]
    unfold Users.generate_id
    rw [if_pos (by omega)]
    obtain ⟨l, u₂, hrec⟩ := ih { u with id := u.id + 1 } (by simp; omega)
    refine ⟨AccessUserId.Generated u.id :: l, u₂, ?_⟩
    simp [hrec]

/-- Concrete registry used by witnesses and evaluations: self id set, alice
and bob online under Server ids. -/
def usersEx : Users :=
  ⟨5, some (.Server 7),
    [(.Server 1, ⟨"alice", .Unknown, true⟩), (.Server 2, ⟨"bob", .Unknown, true⟩)]⟩

/-- Emote reconstruction on a text of shape at-sign, name, space, body:
the outcome is exactly the online lookup of the name, with the body carried
over verbatim. -/
lemma synEmote_from_info_split (users : Users) (name body : String)
    (ch : Option String) (time : Timestamp) (h : ' ' ∉ name.toList) :
    SynEmote.from_info users ⟨"@" ++ name ++ " " ++ body, ch, time⟩ =
      (match users.find_online_nick name with
       | none => .error .NoUserFound
       | some found => .ok ⟨body, found.1, time⟩) := by
  have hns : ' ' ∉ ('@' :: name.toList) := by
    intro hm
    rcases List.mem_cons.mp hm with h1 | h2
    · exact absurd h1 (by decide)
    · exact h h2
  have h1 : ("@" : String).toList = ['@'] := rfl
  have h2 : (" " : String).toList = [' '] := rfl
  have htext : ("@" ++ name ++ " " ++ body).toList =
      ('@' :: name.toList) ++ ' ' :: body.toList := by
    simp [toList_append, h1, h2]
  have hsplit : splitn 2 ' ' ("@" ++ name ++ " " ++ body) =
      [String.mk ('@' :: name.toList), String.mk body.toList] := by
    unfold splitn
    rw [htext, splitnCore_two_with_sep _ hns]
    rfl
  unfold SynEmote.from_info
  rw [hsplit]
  cases hf : users.find_online_nick name with
  | none => simp [stripPrefixCh, mk_toList, hf]
  | some found => simp [stripPrefixCh, mk_toList, hf]

/-- Emote reconstruction on a text of shape at-sign then a space-free name:
the outcome is the online lookup of the name with an empty body. -/
lemma synEmote_from_info_nospace (users : Users) (name : String)
    (ch : Option String) (time : Timestamp) (h : ' ' ∉ name.toList) :
    SynEmote.from_info users ⟨"@" ++ name, ch, time⟩ =
      (match users.find_online_nick name with
       | none => .error .NoUserFound
       | some found => .ok ⟨"", found.1, time⟩) := by
  have hns : ' ' ∉ ('@' :: name.toList) := by
    intro hm
    rcases List.mem_cons.mp hm with h1 | h2
    · exact absurd h1 (by decide)
    · exact h h2
  have h1 : ("@" : String).toList = ['@'] := rfl
  have htext : ("@" ++ name).toList = '@' :: name.toList := by
    simp [toList_append, h1]
  have hsplit : splitn 2 ' ' ("@" ++ name) = [String.mk ('@' :: name.toList)] := by
    unfold splitn
    rw [htext, splitnCore_two_no_sep hns]
    rfl
  unfold SynEmote.from_info
  rw [hsplit]
  cases hf : users.find_online_nick name with
  | none => simp [stripPrefixCh, mk_toList, hf]
  | some found => simp [stripPrefixCh, mk_toList, hf]

/-- Emote reconstruction fails with NoAt whenever the text does not begin
with the at-sign (in particular on the empty text). -/
lemma synEmote_from_info_noat (users : Users) (info : Info)
    (h : info.text.toList.head? ≠ some '@') :
    SynEmote.from_info users info = .error .NoAt := by
  unfold SynEmote.from_info
  unfold splitn
  cases hl : info.text.toList with
  | nil => simp [splitnCore, splitFirst, stripPrefixCh]
  | cons c cs =>
    have hc : c ≠ '@' := by
      intro hh
      apply h
      rw [hl, hh]
      rfl
    by_cases hsp : c = ' '
    · subst hsp
      simp [splitnCore, splitFirst, stripPrefixCh]
    · rw [splitnCore]
      unfold splitFirst
      rw [if_neg hsp]
      cases hsf : splitFirst ' ' cs with
      | none => simp [stripPrefixCh, hc]
      | some p => simp [stripPrefixCh, hc]

/-- Invite reconstruction from an Info notice can never succeed: the source
splits into at most four tokens, while the grammar it then matches needs a
fifth, so the channel lookup always fails earlier. -/
lemma synInvite_from_info_no_success (users : Users) (info : Info) (v : SynInvite) :
    SynInvite.from_info users info ≠ .ok v := by
  intro hok
  have hlen : (splitn 4 ' ' info.text).length ≤ 4 := by
    unfold splitn
    simpa using splitnCore_length_le ' ' 4 info.text.toList
  have h4 : (splitn 4 ' ' info.text)[4]? = none := by
    apply List.getElem?_eq_none
    omega
  simp only [SynInvite.from_info] at hok
  rw [h4] at hok
  split at hok
  all_goals try exact Except.noConfusion hok
  split at hok
  all_goals try exact Except.noConfusion hok
  split at hok
  all_goals try exact Except.noConfusion hok
  split at hok
  all_goals exact Except.noConfusion hok

/-- C1: the claim says that with the self id set and "alice" online, invite
reconstruction from the Info text "alice invited you to ?general" succeeds
with from = alice's id and to = the self id.  The code instead fails with
NoToJoiner: splitn(4) folds "to ?general" into a single fourth token, so the
comparison against "to" can never match (see
synInvite_from_info_no_success).  This theorem runs the code at the claim's
own scenario. -/
theorem claim_C1_invite_reconstruction_eval :
    SynInvite.from_info usersEx ⟨"alice invited you to ?general", none, ⟨9⟩⟩ =
      .error .NoToJoiner := by
  decide

/-- C2: the claim maps "alice invited bob to general" to InvalidChannel; the
code returns NoToJoiner for it (first conjunct), because the fourth splitn
token is "to general".  The NoTo case for a 2-token text does hold (second
conjunct), and a 4-token text ending in "to" is the only way to reach the
channel step, which then always fails NoChannel (third conjunct);
InvalidChannel is unreachable. -/
theorem claim_C2_invite_error_positions_eval :
    SynInvite.from_info usersEx ⟨"alice invited bob to general", none, ⟨9⟩⟩ =
        .error .NoToJoiner ∧
    SynInvite.from_info usersEx ⟨"alice invited", none, ⟨9⟩⟩ = .error .NoTo ∧
    SynInvite.from_info usersEx ⟨"alice invited bob to", none, ⟨9⟩⟩ =
        .error .NoChannel := by
  refine ⟨by decide, by decide, by decide⟩

/-- C3: the claim says a missing "hash" field fails with a field error
naming "hash"; the code fails with InvalidCommandField("channel"), the
error of the channel lookup pasted onto the hash lookup (first conjunct).
The rest of the claim holds: a malformed color ("zzzzzz") and an
unrecognized uType ("owner") decode to absent rather than failing (second
conjunct). -/
theorem claim_C3_online_set_user_hash_eval :
    OnlineSetUser.from_json (.obj [("channel", .str "lounge"), ("nick", .str "alice")])
        .HackChatV2 = .error (.InvalidCommandField "channel") ∧
    OnlineSetUser.from_json (.obj [("channel", .str "lounge"), ("nick", .str "alice"),
        ("hash", .str "h1"), ("color", .str "zzzzzz"), ("uType", .str "owner")])
        .HackChatV2 =
      .ok ⟨"lounge", none, none, "alice", .Unknown, none, none, "h1", none, none⟩ := by
  refine ⟨by decide, by decide⟩

/-- C4: the claim says OnlineSet reads its channel from the wire field
"channel"; the code reads it from the field "text" (id::TEXT).  With a
"channel" field present the decoded channel is none (first conjunct), and
the value is picked up only when sent under "text" (second conjunct). -/
theorem claim_C4_online_set_channel_eval :
    OnlineSet.from_json (.obj [("cmd", .str "onlineSet"), ("time", .num 1),
        ("channel", .str "general")]) .HackChatV2 = .ok ⟨none, none, none, ⟨1⟩⟩ ∧
    OnlineSet.from_json (.obj [("cmd", .str "onlineSet"), ("time", .num 1),
        ("text", .str "general")]) .HackChatV2 =
      .ok ⟨none, none, some "general", ⟨1⟩⟩ := by
  refine ⟨by decide, by decide⟩

/-- C5 counterexample: the claim describes stripping one optional leading
hash and failure on any non-hex character.  The code strips every leading
hash, so "##FFFFFF" succeeds where the claim's reading (colorClaimParse)
fails on length 7; and "+FFFFF" succeeds (the underlying integer parser
accepts a leading plus inside the first 2-byte group) where the claim's
reading rejects the non-hex '+'. -/
theorem claim_C5_counterexample :
    colorClaimParse "##FFFFFF" = .error .UnexpectedEOF ∧
    Color.try_from "##FFFFFF" = some (.ok ⟨255, 255, 255⟩) ∧
    colorClaimParse "+FFFFF" = .error (.ParseError .InvalidDigit) ∧
    Color.try_from "+FFFFF" = some (.ok ⟨15, 255, 255⟩) := by
  refine ⟨by decide, by decide, by decide, by decide⟩

/-- C5 amended: color parsing strips ALL leading hash characters and then
dispatches on the UTF-8 BYTE length of the remainder: byte lengths other
than 3 and 6 fail with the length-mismatch variant the source picks (second
conjunct); 6 hex-digit bytes parse as three 2-hex-digit channels (third);
3 hex-digit bytes parse as three single hex digits, each at most 15 (fourth
and first); byte slicing at an index inside a multi-byte char panics,
modelled as none (fifth and sixth); and the concrete examples behave as
stated, including the non-ASCII ones (last conjunct). -/
theorem claim_C5_color_parse_amended :
    (∀ b v : Nat, hexValB? b = some v → v ≤ 15) ∧
    (∀ s : String,
      (strBytes (s.toList.dropWhile (fun c => c = '#'))).length ≠ 3 →
      (strBytes (s.toList.dropWhile (fun c => c = '#'))).length ≠ 6 →
      Color.try_from s = some (.error
        (if 6 < (strBytes (s.toList.dropWhile (fun c => c = '#'))).length then
          .UnexpectedEOF
         else .TooManyCharacters))) ∧
    (∀ (s : String) (x1 x2 x3 x4 x5 x6 : Char) (v1 v2 v3 v4 v5 v6 : Nat),
      s.toList.dropWhile (fun c => c = '#') = [x1, x2, x3, x4, x5, x6] →
      hexValB? x1.toNat = some v1 → hexValB? x2.toNat = some v2 →
      hexValB? x3.toNat = some v3 → hexValB? x4.toNat = some v4 →
      hexValB? x5.toNat = some v5 → hexValB? x6.toNat = some v6 →
      Color.try_from s = some (.ok ⟨16 * v1 + v2, 16 * v3 + v4, 16 * v5 + v6⟩)) ∧
    (∀ (s : String) (x1 x2 x3 : Char) (v1 v2 v3 : Nat),
      s.toList.dropWhile (fun c => c = '#') = [x1, x2, x3] →
      hexValB? x1.toNat = some v1 → hexValB? x2.toNat = some v2 →
      hexValB? x3.toNat = some v3 →
      Color.try_from s = some (.ok ⟨v1, v2, v3⟩)) ∧
    (∀ s : String,
      (strBytes (s.toList.dropWhile (fun c => c = '#'))).length = 3 →
      isCharBoundary (s.toList.dropWhile (fun c => c = '#')) 1 = false →
      Color.try_from s = none) ∧
    (∀ s : String,
      (strBytes (s.toList.dropWhile (fun c => c = '#'))).length = 6 →
      isCharBoundary (s.toList.dropWhile (fun c => c = '#')) 2 = false →
      Color.try_from s = none) ∧
    (Color.try_from "#FFFFFF" = some (.ok ⟨255, 255, 255⟩) ∧
      Color.try_from "000" = some (.ok ⟨0, 0, 0⟩) ∧
      Color.try_from "12" = some (.error .TooManyCharacters) ∧
      Color.try_from "GGGGGG" = some (.error (.ParseError .InvalidDigit)) ∧
      Color.try_from "ééééé" = some (.error .UnexpectedEOF) ∧
      Color.try_from "éé00" = some (.error (.ParseError .InvalidDigit)) ∧
      Color.try_from "é0" = none) := by
  refine ⟨fun b v h => hexValB?_le h, ?_, ?_, ?_, ?_, ?_, by decide, by decide,
    by decide, by decide, by decide, by decide, by decide⟩
  · intro s h3 h6
    simp only [Color.try_from, colorParseStripped]
    split_ifs with hgt hlt heq3 <;>
      first
        | rfl
        | (exact absurd heq3 h3)
        | (exact absurd (by omega) h6)
  · intro s x1 x2 x3 x4 x5 x6 v1 v2 v3 v4 v5 v6 hdrop h1 h2 h3 h4 h5 h6
    have a1 := hexValB?_lt128 h1
    have a2 := hexValB?_lt128 h2
    have a3 := hexValB?_lt128 h3
    have a4 := hexValB?_lt128 h4
    have a5 := hexValB?_lt128 h5
    have a6 := hexValB?_lt128 h6
    have hB : strBytes [x1, x2, x3, x4, x5, x6] =
        [x1.toNat, x2.toNat, x3.toNat, x4.toNat, x5.toNat, x6.toNat] := by
      simp [strBytes, utf8Bytes_ascii a1, utf8Bytes_ascii a2, utf8Bytes_ascii a3,
        utf8Bytes_ascii a4, utf8Bytes_ascii a5, utf8Bytes_ascii a6]
    have c2 : isCharBoundary [x1, x2, x3, x4, x5, x6] 2 = true := by
      rw [show (2 : Nat) = 1 + 1 from rfl, isCharBoundary_cons_ascii a1]
      rw [show (1 : Nat) = 0 + 1 from rfl, isCharBoundary_cons_ascii a2]
      rfl
    have c4 : isCharBoundary [x1, x2, x3, x4, x5, x6] 4 = true := by
      rw [show (4 : Nat) = 3 + 1 from rfl, isCharBoundary_cons_ascii a1]
      rw [show (3 : Nat) = 2 + 1 from rfl, isCharBoundary_cons_ascii a2]
      rw [show (2 : Nat) = 1 + 1 from rfl, isCharBoundary_cons_ascii a3]
      rw [show (1 : Nat) = 0 + 1 from rfl, isCharBoundary_cons_ascii a4]
      rfl
    have s1 : sliceList [x1.toNat, x2.toNat, x3.toNat, x4.toNat, x5.toNat,
        x6.toNat] 0 2 = [x1.toNat, x2.toNat] := rfl
    have s2 : sliceList [x1.toNat, x2.toNat, x3.toNat, x4.toNat, x5.toNat,
        x6.toNat] 2 4 = [x3.toNat, x4.toNat] := rfl
    have s3 : sliceList [x1.toNat, x2.toNat, x3.toNat, x4.toNat, x5.toNat,
        x6.toNat] 4 6 = [x5.toNat, x6.toNat] := rfl
    unfold Color.try_from
    rw [hdrop]
    simp [colorParseStripped, hB, c2, c4, s1, s2, s3, u8radix2 h1 h2,
      u8radix2 h3 h4, u8radix2 h5 h6]
  · intro s x1 x2 x3 v1 v2 v3 hdrop h1 h2 h3
    have a1 := hexValB?_lt128 h1
    have a2 := hexValB?_lt128 h2
    have a3 := hexValB?_lt128 h3
    have hB : strBytes [x1, x2, x3] = [x1.toNat, x2.toNat, x3.toNat] := by
      simp [strBytes, utf8Bytes_ascii a1, utf8Bytes_ascii a2, utf8Bytes_ascii a3]
    have c1 : isCharBoundary [x1, x2, x3] 1 = true := by
      rw [show (1 : Nat) = 0 + 1 from rfl, isCharBoundary_cons_ascii a1]
      rfl
    have c2 : isCharBoundary [x1, x2, x3] 2 = true := by
      rw [show (2 : Nat) = 1 + 1 from rfl, isCharBoundary_cons_ascii a1]
      rw [show (1 : Nat) = 0 + 1 from rfl, isCharBoundary_cons_ascii a2]
      rfl
    have s1 : sliceList [x1.toNat, x2.toNat, x3.toNat] 0 1 = [x1.toNat] := rfl
    have s2 : sliceList [x1.toNat, x2.toNat, x3.toNat] 1 2 = [x2.toNat] := rfl
    have s3 : sliceList [x1.toNat, x2.toNat, x3.toNat] 2 3 = [x3.toNat] := rfl
    unfold Color.try_from
    rw [hdrop]
    simp [colorParseStripped, hB, c1, c2, s1, s2, s3, u8radix1 h1,
      u8radix1 h2, u8radix1 h3]
  · intro s hlen hbnd
    simp only [String.toList] at hlen hbnd
    simp [Color.try_from, colorParseStripped, hlen, hbnd]
  · intro s hlen hbnd
    simp only [String.toList] at hlen hbnd
    simp [Color.try_from, colorParseStripped, hlen, hbnd]

/-- C5 witness: the amended theorem applied at concrete inputs of each
shape, including a panicking non-ASCII one. -/
theorem claim_C5_color_parse_amended_witness :
    Color.try_from "12" = some (.error .TooManyCharacters) ∧
    Color.try_from "#a1b2c3" = some (.ok ⟨16 * 10 + 1, 16 * 11 + 2, 16 * 12 + 3⟩) ∧
    Color.try_from "#abc" = some (.ok ⟨10, 11, 12⟩) ∧
    Color.try_from "é0" = none := by
  refine ⟨?_, ?_, ?_, ?_⟩
  · have := claim_C5_color_parse_amended.2.1 "12" (by decide) (by decide)
    simpa using this
  · exact claim_C5_color_parse_amended.2.2.1 "#a1b2c3" 'a' '1' 'b' '2' 'c' '3'
      10 1 11 2 12 3 (by decide) (by decide) (by decide) (by decide) (by decide)
      (by decide) (by decide)
  · exact claim_C5_color_parse_amended.2.2.2.1 "#abc" 'a' 'b' 'c' 10 11 12
      (by decide) (by decide) (by decide) (by decide)
  · exact claim_C5_color_parse_amended.2.2.2.2.1 "é0" (by decide) (by decide)

/-- C6 counterexample: the claim says an empty name after the at-sign fails
with NoUser; on the text consisting of a single at-sign (empty name) the
code instead looks the empty nickname up and fails with NoUserFound.  The
NoUser variant is unreachable: splitn always yields a first piece. -/
theorem claim_C6_counterexample :
    SynEmote.from_info defaultUsers ⟨"@", none, ⟨0⟩⟩ = .error .NoUserFound ∧
    SynEmote.from_info defaultUsers ⟨"@", none, ⟨0⟩⟩ ≠ .error .NoUser := by
  refine ⟨by decide, by decide⟩

/-- C6 amended: a text not starting with the at-sign fails NoAt; a text of
shape at-sign, space-free name, then optionally a space and a body, resolves
the name among online users - success carries that user's id and the body
(or the empty string without a body), and a failed lookup (including the
empty name) yields NoUserFound. -/
theorem claim_C6_emote_from_info_amended :
    (∀ (users : Users) (info : Info), info.text.toList.head? ≠ some '@' →
      SynEmote.from_info users info = .error .NoAt) ∧
    (∀ (users : Users) (name body : String) (ch : Option String) (time : Timestamp)
        (uid : AccessUserId) (i : UserInfo), ' ' ∉ name.toList →
      users.find_online_nick name = some (uid, i) →
      SynEmote.from_info users ⟨"@" ++ name ++ " " ++ body, ch, time⟩ =
        .ok ⟨body, uid, time⟩) ∧
    (∀ (users : Users) (name : String) (ch : Option String) (time : Timestamp)
        (uid : AccessUserId) (i : UserInfo), ' ' ∉ name.toList →
      users.find_online_nick name = some (uid, i) →
      SynEmote.from_info users ⟨"@" ++ name, ch, time⟩ = .ok ⟨"", uid, time⟩) ∧
    (∀ (users : Users) (name body : String) (ch : Option String) (time : Timestamp),
      ' ' ∉ name.toList →
      users.find_online_nick name = none →
      SynEmote.from_info users ⟨"@" ++ name ++ " " ++ body, ch, time⟩ =
        .error .NoUserFound) ∧
    (∀ (users : Users) (name : String) (ch : Option String) (time : Timestamp),
      ' ' ∉ name.toList →
      users.find_online_nick name = none →
      SynEmote.from_info users ⟨"@" ++ name, ch, time⟩ = .error .NoUserFound) := by
  refine ⟨fun users info h => synEmote_from_info_noat users info h, ?_, ?_, ?_, ?_⟩
  · intro users name body ch time uid i h hf
    rw [synEmote_from_info_split users name body ch time h, hf]
  · intro users name ch time uid i h hf
    rw [synEmote_from_info_nospace users name ch time h, hf]
  · intro users name body ch time h hf
    rw [synEmote_from_info_split users name body ch time h, hf]
  · intro users name ch time h hf
    rw [synEmote_from_info_nospace users name ch time h, hf]

/-- C6 witness: the amended theorem applied at the claim's own example
("bob" online, "@bob waves hello"), at a no-at text, at a bodyless text and
at unknown names. -/
theorem claim_C6_emote_from_info_amended_witness :
    SynEmote.from_info usersEx ⟨"bob waves", none, ⟨9⟩⟩ = .error .NoAt ∧
    SynEmote.from_info usersEx ⟨"@bob waves hello", none, ⟨9⟩⟩ =
      .ok ⟨"waves hello", .Server 2, ⟨9⟩⟩ ∧
    SynEmote.from_info usersEx ⟨"@bob", none, ⟨9⟩⟩ = .ok ⟨"", .Server 2, ⟨9⟩⟩ ∧
    SynEmote.from_info usersEx ⟨"@carol waves", none, ⟨9⟩⟩ = .error .NoUserFound ∧
    SynEmote.from_info usersEx ⟨"@carol", none, ⟨9⟩⟩ = .error .NoUserFound := by
  refine ⟨claim_C6_emote_from_info_amended.1 usersEx _ (by decide),
    claim_C6_emote_from_info_amended.2.1 usersEx "bob" "waves hello" none ⟨9⟩
      (.Server 2) ⟨"bob", .Unknown, true⟩ (by decide) (by decide),
    claim_C6_emote_from_info_amended.2.2.1 usersEx "bob" none ⟨9⟩
      (.Server 2) ⟨"bob", .Unknown, true⟩ (by decide) (by decide),
    claim_C6_emote_from_info_amended.2.2.2.1 usersEx "carol" "waves" none ⟨9⟩
      (by decide) (by decide),
    claim_C6_emote_from_info_amended.2.2.2.2 usersEx "carol" none ⟨9⟩
      (by decide) (by decide)⟩

/-- C7: each of the nine tagged decoders fails immediately with
InvalidCommandField naming its fixed tag whenever the wire "cmd" field does
not hold that tag; the Warn decoder performs no such check and succeeds for
any "cmd" value whenever "text" is a string and "time" a valid number. -/
theorem claim_C7_cmd_tag_checks :
    (∀ (j : Json) (api : ServerApi), (j.getKey "cmd").as_str ≠ some "onlineSet" →
      OnlineSet.from_json j api = .error (.InvalidCommandField "onlineSet")) ∧
    (∀ (j : Json) (api : ServerApi), (j.getKey "cmd").as_str ≠ some "session" →
      ServerSession.from_json j api = .error (.InvalidCommandField "session")) ∧
    (∀ (j : Json) (api : ServerApi), (j.getKey "cmd").as_str ≠ some "info" →
      Info.from_json j api = .error (.InvalidCommandField "info")) ∧
    (∀ (j : Json) (api : ServerApi), (j.getKey "cmd").as_str ≠ some "chat" →
      ServerChat.from_json j api = .error (.InvalidCommandField "chat")) ∧
    (∀ (j : Json) (api : ServerApi), (j.getKey "cmd").as_str ≠ some "captcha" →
      Captcha.from_json j api = .error (.InvalidCommandField "captcha")) ∧
    (∀ (j : Json) (api : ServerApi), (j.getKey "cmd").as_str ≠ some "emote" →
      Emote.from_json j api = .error (.InvalidCommandField "emote")) ∧
    (∀ (j : Json) (api : ServerApi), (j.getKey "cmd").as_str ≠ some "invite" →
      Invite.from_json j api = .error (.InvalidCommandField "invite")) ∧
    (∀ (j : Json) (api : ServerApi), (j.getKey "cmd").as_str ≠ some "onlineAdd" →
      OnlineAdd.from_json j api = .error (.InvalidCommandField "onlineAdd")) ∧
    (∀ (j : Json) (api : ServerApi), (j.getKey "cmd").as_str ≠ some "onlineRemove" →
      OnlineRemove.from_json j api = .error (.InvalidCommandField "onlineRemove")) ∧
    (∀ (j : Json) (api : ServerApi) (t : String) (n : Nat),
      (j.getKey "text").take_string = some t →
      (j.getKey "time").as_u64 = some n →
      Warn.from_json j api = .ok ⟨(j.getKey "channel").take_string, t, ⟨n⟩⟩) := by
  refine ⟨?_, ?_, ?_, ?_, ?_, ?_, ?_, ?_, ?_, ?_⟩
  · intro j api h
    unfold OnlineSet.from_json
    rw [if_pos h]
  · intro j api h
    unfold ServerSession.from_json
    rw [if_pos h]
  · intro j api h
    unfold Info.from_json
    rw [if_pos h]
  · intro j api h
    unfold ServerChat.from_json
    rw [if_pos h]
  · intro j api h
    unfold Captcha.from_json
    rw [if_pos h]
  · intro j api h
    unfold Emote.from_json
    rw [if_pos h]
  · intro j api h
    unfold Invite.from_json
    rw [if_pos h]
  · intro j api h
    unfold OnlineAdd.from_json
    rw [if_pos h]
  · intro j api h
    unfold OnlineRemove.from_json
    rw [if_pos h]
  · intro j api t n ht hn
    unfold Warn.from_json Timestamp.from_json
    rw [ht, hn]
    simp only [okOr, Option.map_some', exceptBind_ok, exceptPure]

/-- C7 witness: each decoder rejects a JSON object carrying the wrong tag
"nope", while the Warn decoder accepts it. -/
theorem claim_C7_cmd_tag_checks_witness :
    OnlineSet.from_json (.obj [("cmd", .str "nope")]) .HackChatV2 =
        .error (.InvalidCommandField "onlineSet") ∧
    ServerSession.from_json (.obj [("cmd", .str "nope")]) .HackChatV2 =
        .error (.InvalidCommandField "session") ∧
    Info.from_json (.obj [("cmd", .str "nope")]) .HackChatV2 =
        .error (.InvalidCommandField "info") ∧
    ServerChat.from_json (.obj [("cmd", .str "nope")]) .HackChatV2 =
        .error (.InvalidCommandField "chat") ∧
    Captcha.from_json (.obj [("cmd", .str "nope")]) .HackChatV2 =
        .error (.InvalidCommandField "captcha") ∧
    Emote.from_json (.obj [("cmd", .str "nope")]) .HackChatV2 =
        .error (.InvalidCommandField "emote") ∧
    Invite.from_json (.obj [("cmd", .str "nope")]) .HackChatV2 =
        .error (.InvalidCommandField "invite") ∧
    OnlineAdd.from_json (.obj [("cmd", .str "nope")]) .HackChatV2 =
        .error (.InvalidCommandField "onlineAdd") ∧
    OnlineRemove.from_json (.obj [("cmd", .str "nope")]) .HackChatV2 =
        .error (.InvalidCommandField "onlineRemove") ∧
    Warn.from_json (.obj [("cmd", .str "nope"), ("text", .str "hi"), ("time", .num 3)])
        .HackChatV2 = .ok ⟨none, "hi", ⟨3⟩⟩ := by
  refine ⟨claim_C7_cmd_tag_checks.1 _ .HackChatV2 (by decide),
    claim_C7_cmd_tag_checks.2.1 _ .HackChatV2 (by decide),
    claim_C7_cmd_tag_checks.2.2.1 _ .HackChatV2 (by decide),
    claim_C7_cmd_tag_checks.2.2.2.1 _ .HackChatV2 (by decide),
    claim_C7_cmd_tag_checks.2.2.2.2.1 _ .HackChatV2 (by decide),
    claim_C7_cmd_tag_checks.2.2.2.2.2.1 _ .HackChatV2 (by decide),
    claim_C7_cmd_tag_checks.2.2.2.2.2.2.1 _ .HackChatV2 (by decide),
    claim_C7_cmd_tag_checks.2.2.2.2.2.2.2.1 _ .HackChatV2 (by decide),
    claim_C7_cmd_tag_checks.2.2.2.2.2.2.2.2.1 _ .HackChatV2 (by decide),
    claim_C7_cmd_tag_checks.2.2.2.2.2.2.2.2.2 _ .HackChatV2 "hi" 3 (by decide)
      (by decide)⟩

/-- C8 counterexample: the claim quantifies over every N, but the id counter
is a u64: starting from a fresh registry, a run of 2 to the 64 calls aborts
on the final increment (checked-arithmetic overflow), so it does not yield
that many distinct identifiers; under release wrap-around semantics the
payloads would repeat instead.  Either way the unbounded claim fails. -/
theorem claim_C8_counterexample :
    Users.mintN defaultUsers (2 ^ 64) = none := by
  apply mintN_overflow
  · exact Nat.one_le_two_pow
  · simp [defaultUsers]

/-- C8 amended: as long as the counter has headroom (initial counter plus N
below 2 to the 64), N successive generate_id calls yield exactly the
Generated identifiers with payloads counter, ..., counter+N-1: pairwise
distinct, strictly increasing, never equal to any Server identifier, and
never repeating a payload minted earlier in the run. -/
theorem claim_C8_generate_id_amended :
    ∀ (u : Users) (n : Nat), u.id + n < 2 ^ 64 →
      ∃ (ids : List AccessUserId) (u₂ : Users),
        u.mintN n = some (ids, u₂) ∧
        ids = (List.range n).map (fun k => AccessUserId.Generated (u.id + k)) ∧
        ids.Nodup ∧
        List.Pairwise (fun a b => a.num < b.num) ids ∧
        (∀ x ∈ ids, ∀ s : Nat, x ≠ .Server s) := by
  intro u n hlt
  obtain ⟨ids, u₂, hm⟩ := mintN_isSome n u hlt
  have hspec := mintN_some_spec hm
  refine ⟨ids, u₂, hm, hspec.1, ?_, ?_, ?_⟩
  · rw [hspec.1]
    refine List.Nodup.map ?_ (List.nodup_range n)
    intro a b hab
    have := AccessUserId.Generated.inj hab
    omega
  · rw [hspec.1]
    refine List.Pairwise.map _ ?_ (List.pairwise_lt_range n)
    intro a b hab
    simp only [AccessUserId.num]
    omega
  · rw [hspec.1]
    intro x hx s
    rcases List.mem_map.mp hx with ⟨k, _, rfl⟩
    exact fun hcon => AccessUserId.noConfusion hcon

/-- C8 witness: three calls on a fresh registry mint Generated 0, 1, 2. -/
theorem claim_C8_generate_id_amended_witness :
    ∃ (ids : List AccessUserId) (u₂ : Users),
      Users.mintN defaultUsers 3 = some (ids, u₂) ∧
      ids = (List.range 3).map (fun k => AccessUserId.Generated (defaultUsers.id + k)) ∧
      ids.Nodup ∧
      List.Pairwise (fun a b => a.num < b.num) ids ∧
      (∀ x ∈ ids, ∀ s : Nat, x ≠ .Server s) :=
  claim_C8_generate_id_amended defaultUsers 3 (by decide)

/-- C9: with tag UserId the projection returns the numeric id of any
Server-tagged identifier without consulting the map (for every registry,
present or not) and none for Generated identifiers; with tag Nickname or
Trip a missing entry gives none, and with Trip a stored trip that is not
confirmed present (Unknown or Not) also gives none. -/
theorem claim_C9_acquire_server_identifier :
    (∀ (u : Users) (n : Nat),
      u.acquire_server_identifier (.Server n) .UserId = some (.UserId n)) ∧
    (∀ (u : Users) (n : Nat),
      u.acquire_server_identifier (.Generated n) .UserId = none) ∧
    (∀ (u : Users) (i : AccessUserId), u.get i = none →
      u.acquire_server_identifier i .Nickname = none) ∧
    (∀ (u : Users) (i : AccessUserId), u.get i = none →
      u.acquire_server_identifier i .Trip = none) ∧
    (∀ (u : Users) (i : AccessUserId) (info : UserInfo), u.get i = some info →
      (info.trip = .Unknown ∨ info.trip = .Not) →
      u.acquire_server_identifier i .Trip = none) := by
  refine ⟨fun u n => rfl, fun u n => rfl, ?_, ?_, ?_⟩
  · intro u i h
    simp [Users.acquire_server_identifier, h]
  · intro u i h
    simp [Users.acquire_server_identifier, h]
  · intro u i info h htrip
    rcases htrip with h1 | h1 <;>
      simp [Users.acquire_server_identifier, h, h1, MaybeExist.map, MaybeExist.toOption]

/-- C9 witness: the projection rules at a concrete registry, including a
Server id with no entry and an entry whose trip is Unknown. -/
theorem claim_C9_acquire_server_identifier_witness :
    Users.acquire_server_identifier usersEx (.Server 42) .UserId =
        some (.UserId 42) ∧
    Users.acquire_server_identifier usersEx (.Generated 1) .UserId = none ∧
    Users.acquire_server_identifier usersEx (.Server 42) .Nickname = none ∧
    Users.acquire_server_identifier usersEx (.Server 42) .Trip = none ∧
    Users.acquire_server_identifier usersEx (.Server 1) .Trip = none :=
  ⟨claim_C9_acquire_server_identifier.1 usersEx 42,
    claim_C9_acquire_server_identifier.2.1 usersEx 1,
    claim_C9_acquire_server_identifier.2.2.1 usersEx _ (by decide),
    claim_C9_acquire_server_identifier.2.2.2.1 usersEx _ (by decide),
    claim_C9_acquire_server_identifier.2.2.2.2 usersEx _ ⟨"alice", .Unknown, true⟩
      (by decide) (Or.inl rfl)⟩

/-- C10: clear empties the user map and changes nothing else - the self id
and the generated-id counter keep their values - and consequently the
identifiers minted after a clear are distinct from all those minted before
it. -/
theorem claim_C10_clear_frame :
    (∀ u : Users, (u.clear).users = [] ∧ (u.clear).ourself = u.ourself ∧
      (u.clear).id = u.id) ∧
    (∀ (u : Users) (a b : Nat) (la lb : List AccessUserId) (u₁ u₂ : Users),
      u.mintN a = some (la, u₁) → (u₁.clear).mintN b = some (lb, u₂) →
      ∀ x ∈ la, x ∉ lb) := by
  constructor
  · exact fun u => ⟨rfl, rfl, rfl⟩
  · intro u a b la lb u₁ u₂ h1 h2 x hx hxin
    have s1 := mintN_some_spec h1
    have s2 := mintN_some_spec h2
    rw [s1.1] at hx
    rw [s2.1] at hxin
    rcases List.mem_map.mp hx with ⟨k, hk, rfl⟩
    rcases List.mem_map.mp hxin with ⟨k2, hk2, heq⟩
    have hid : (u₁.clear).id = u.id + a := by simp [Users.clear, s1.2.1]
    rw [hid] at heq
    have hinj := AccessUserId.Generated.inj heq
    have hka := List.mem_range.mp hk
    omega

/-- C10 witness: clearing a concrete registry keeps self id and counter, and
a concrete id minted before a clear does not reappear among ids minted
after it. -/
theorem claim_C10_clear_frame_witness :
    (Users.clear usersEx).users = [] ∧
    (Users.clear usersEx).ourself = usersEx.ourself ∧
    (Users.clear usersEx).id = usersEx.id ∧
    (AccessUserId.Generated 0) ∉ [AccessUserId.Generated 2, AccessUserId.Generated 3] := by
  refine ⟨(claim_C10_clear_frame.1 usersEx).1, (claim_C10_clear_frame.1 usersEx).2.1,
    (claim_C10_clear_frame.1 usersEx).2.2, ?_⟩
  exact claim_C10_clear_frame.2 defaultUsers 2 2
    [.Generated 0, .Generated 1] [.Generated 2, .Generated 3]
    ⟨2, none, []⟩ ⟨4, none, []⟩ (by decide) (by decide) (.Generated 0) (by decide)
